import Mathlib

/-!
Shallow embedding of `src/mongodb_processor.py` and `src/symbol_finder.py`
(repository `financial-plotting`), together with proofs settling the frozen
claims about the normalization pipeline, the change-feed tailer, the pipeline
driver, and the exchange-resolution recursion.

Modelling conventions:
* Python JSON-like values are the inductive `Value`; Python `dict`s are
  association lists (`Doc`) manipulated only through operations that mirror
  Python dict semantics (`Dict.set` is item assignment, `Dict.update` is
  `dict.update`, `Dict.pop` is `dict.pop(k, None)`).
* `uuid.uuid4()` is modelled by a supply `gen : Nat → String`: the i-th
  identifier generated during one call to the normalizer is `gen i`.
  Uniqueness/freshness of the generated identifiers is expressed as
  hypotheses on `gen`.
* Python exceptions are explicit: `Except`/`Option PyErr` values.
-/

namespace FinPlot

/-- JSON-like values as stored in the source collection documents. -/
inductive Value where
  | vNull : Value
  | vBool : Bool → Value
  | vInt : Int → Value
  | vStr : String → Value
  | vList : List Value → Value
  | vDict : List (String × Value) → Value

/-- A Python dict with string keys (a MongoDB document): an association list
in insertion order.  Real Python dicts have unique keys; every dict built by
the embedded code is built through `Dict.set`, which preserves that. -/
abbrev Doc := List (String × Value)

namespace Dict

/-- Python `k in d` for a dict `d`. -/
def contains (d : Doc) (k : String) : Bool :=
  d.any (fun p => p.1 == k)

/-- Python `d[k]` / `d.get(k)`: value at the first occurrence of `k`. -/
def get? (d : Doc) (k : String) : Option Value :=
  (d.find? (fun p => p.1 == k)).map (·.2)

/-- Python `d.pop(k, None)`: remove the key `k` (all occurrences). -/
def pop (d : Doc) (k : String) : Doc :=
  d.filter (fun p => p.1 ≠ k)

/-- Python item assignment `d[k] = v`: overwrite in place if the key exists,
append otherwise. -/
def set (d : Doc) (k : String) (v : Value) : Doc :=
  if contains d k then
    d.map (fun p => if p.1 == k then (k, v) else p)
  else
    d ++ [(k, v)]

/-- Python `d.update(e)`: assign every item of `e` into `d`, in order. -/
def update (d e : Doc) : Doc :=
  e.foldl (fun acc p => set acc p.1 p.2) d

end Dict

/-- Errors raised by `normalize_analyst_output`.  The code raises
`ValueError` with distinct messages; the spec's taxonomy names them
`InvalidInputError` (non-list input) and `MissingColumnError` (nested column
unresolvable).  `typeError` models the `TypeError` Python raises when a
membership test `column_name in record` hits a record that is not a mapping
(claims quantify over record sets of mappings, as in the spec's data model). -/
inductive NormError where
  | invalidInput : NormError
  | missingColumn : NormError
  | typeError : NormError
deriving DecidableEq, Repr

/-- Python truthiness of the `column_name` argument (`if column_name:`):
`None` and the empty string are falsy. -/
def truthyStr : Option String → Bool
  | none => false
  | some s => s ≠ ""

/-- Lines 32–43 of `mongodb_processor.py`: determine the column to process.
A truthy explicit `column_name` must occur in some record; otherwise
auto-detect `'analyst_consensus_output'`, then `'analyst_outputs'`. -/
def resolveColumn (records : List Doc) (column_name : Option String) :
    Except NormError String :=
  if truthyStr column_name then
    match column_name with
    | some s =>
        if records.any (fun r => Dict.contains r s) then .ok s
        else .error .missingColumn
    | none => .error .missingColumn
  else
    if records.any (fun r => Dict.contains r "analyst_consensus_output") then
      .ok "analyst_consensus_output"
    else if records.any (fun r => Dict.contains r "analyst_outputs") then
      .ok "analyst_outputs"
    else .error .missingColumn

/-- The default `keys_to_select` argument (line 14). -/
def defaultKeysToSelect : List String :=
  ["article_db_id", "artical_db_id", "published_datetime", "pair", "category_name"]

/-- Line 57: `{k: v for k, v in flattened_record.items() if k in keys_to_select}`. -/
def selectKeys (keys : List String) (d : Doc) : Doc :=
  d.filter (fun p => keys.contains p.1)

/-- Python `key_rename_map.get(k, k)`. -/
def renameKey (km : List (String × String)) (k : String) : String :=
  match km.find? (fun p => p.1 == k) with
  | some p => p.2
  | none => k

/-- Line 61: `{key_rename_map.get(k, k): v for k, v in flattened_record.items()}`,
built like a Python dict comprehension (assignment in iteration order, so a
later key colliding after renaming overwrites the earlier value). -/
def renameKeys (km : List (String × String)) (d : Doc) : Doc :=
  d.foldl (fun acc p => Dict.set acc (renameKey km p.1) p.2) []

/-- Lines 48–66, body of the inner loop for one element `nested` of the
nested list: copy the record, drop the nested column and `_id`, overlay the
sub-record if it is a dict, select keys, rename keys, then assign the fresh
signal id `uid` last. -/
def flattenOne (column_name : String) (keys_to_select : List String)
    (key_rename_map : List (String × String)) (uid : String)
    (record : Doc) (nested : Value) : Doc :=
  let fr := Dict.pop (Dict.pop record column_name) "_id"
  let fr := match nested with
    | .vDict d => Dict.update fr d
    | _ => fr
  let fr := if keys_to_select ≠ [] then selectKeys keys_to_select fr else fr
  let fr := if key_rename_map ≠ [] then renameKeys key_rename_map fr else fr
  Dict.set fr "signal_id" (.vStr uid)

/-- Line 47's guard together with the nested list: the record contributes one
output per element of `record[column_name]` when that key is present with a
list value, and nothing otherwise. -/
def nestedItems (column_name : String) (record : Doc) : List Value :=
  match Dict.get? record column_name with
  | some (.vList items) => items
  | _ => []

/-- Number of output records contributed by one input record. -/
def nestedCount (column_name : String) (record : Doc) : Nat :=
  (nestedItems column_name record).length

/-- Line 48's inner loop `for nested in record[column_name]`, threading the
uuid counter: the i-th record appended overall receives `gen i`. -/
def innerLoop (gen : Nat → String) (column_name : String)
    (keys_to_select : List String) (key_rename_map : List (String × String))
    (record : Doc) : Nat → List Value → List Doc
  | _, [] => []
  | ctr, nested :: rest =>
      flattenOne column_name keys_to_select key_rename_map (gen ctr) record nested
        :: innerLoop gen column_name keys_to_select key_rename_map record
            (ctr + 1) rest

/-- Lines 45–67: the outer loop over `data`, threading the uuid counter. -/
def normalizeLoop (gen : Nat → String) (column_name : String)
    (keys_to_select : List String) (key_rename_map : List (String × String)) :
    Nat → List Doc → List Doc
  | _, [] => []
  | ctr, record :: rest =>
      innerLoop gen column_name keys_to_select key_rename_map record ctr
          (nestedItems column_name record)
        ++ normalizeLoop gen column_name keys_to_select key_rename_map
            (ctr + nestedCount column_name record) rest

/-- `normalize_analyst_output` on a list of documents (after the list check):
column resolution followed by the flattening loop. -/
def normalizeDocs (gen : Nat → String) (records : List Doc)
    (column_name : Option String) (keys_to_select : List String)
    (key_rename_map : List (String × String)) : Except NormError (List Doc) :=
  match resolveColumn records column_name with
  | .error e => .error e
  | .ok col => .ok (normalizeLoop gen col keys_to_select key_rename_map 0 records)

/-- View a `Value` as a document. -/
def Value.asDoc : Value → Option Doc
  | .vDict d => some d
  | _ => none

/-- Whether a `Value` is a Python list (`isinstance(data, list)`). -/
def Value.isList : Value → Bool
  | .vList _ => true
  | _ => false

/-- View every element as a document; `none` as soon as one is not. -/
def allDocs : List Value → Option (List Doc)
  | [] => some []
  | v :: vs =>
      match v.asDoc, allDocs vs with
      | some d, some ds => some (d :: ds)
      | _, _ => none

/-- Lines 14–68: `normalize_analyst_output(data, column_name, keys_to_select,
key_rename_map)`.  Raises `invalidInput` when `data` is not a list (line 29);
non-mapping elements of the list, on which Python's membership scans would
raise `TypeError`, are modelled by `typeError`. -/
def normalize_analyst_output (gen : Nat → String) (data : Value)
    (column_name : Option String := none)
    (keys_to_select : List String := defaultKeysToSelect)
    (key_rename_map : List (String × String) := []) :
    Except NormError (List Doc) :=
  match data with
  | .vList rs =>
      match allDocs rs with
      | some records => normalizeDocs gen records column_name keys_to_select key_rename_map
      | none => .error .typeError
  | _ => .error .invalidInput

/-! ## Change-feed tailer and pipeline driver (lines 70–111) -/

/-- Python exceptions relevant to the tailer: `PyMongoError` raised by the
storage collaborator, `KeyError` from subscripting a change document, and
`ValueError` (the class the inner handler catches, and the class the
normalizer raises). -/
inductive PyErr where
  | storage : PyErr
  | keyErr : PyErr
  | valueErr : PyErr
deriving DecidableEq

/-- Outcome of one `target_collection.insert_one(...)` call, a parameter of
the model standing for the storage collaborator's behaviour. -/
inductive InsertOutcome where
  | ok : InsertOutcome
  | storageErr : InsertOutcome
  | valueErr : InsertOutcome
deriving DecidableEq

/-- Observable events of one `start_change_stream` run, in order. -/
inductive TEvent where
  | listening : TEvent
  | insertedDoc : Value → TEvent
  | loggedInsertError : TEvent
  | loggedStreamError : TEvent
  | closedConnection : TEvent

/-- Python `v == "s"` for a JSON value `v` (False when `v` is not a string). -/
def valueEqStr : Value → String → Bool
  | .vStr s, t => s == t
  | _, _ => false

/-- Lines 92–99: the `for change in stream` loop.  `insert` gives the outcome
of each `insert_one` call; `endErr` tells whether the stream iteration itself
raises `PyMongoError` after delivering `changes`.  Returns the emitted events
and the exception escaping the loop, if any.  An `InsertOutcome.valueErr` is
caught by the inner `except ValueError` (line 98); an
`InsertOutcome.storageErr` (`PyMongoError`, the class `insert_one` actually
raises on storage failure) is NOT caught there and escapes the loop. -/
def tailLoop (insert : Value → InsertOutcome) (endErr : Bool) :
    List Doc → List TEvent × Option PyErr
  | [] => ([], if endErr then some PyErr.storage else none)
  | change :: rest =>
      match Dict.get? change "operationType" with
      | none => ([], some PyErr.keyErr)
      | some op =>
          if valueEqStr op "insert" then
            match Dict.get? change "fullDocument" with
            | none => ([], some PyErr.keyErr)
            | some newDoc =>
                match insert newDoc with
                | .ok =>
                    let (tr, e) := tailLoop insert endErr rest
                    (TEvent.insertedDoc newDoc :: tr, e)
                | .valueErr =>
                    let (tr, e) := tailLoop insert endErr rest
                    (TEvent.loggedInsertError :: tr, e)
                | .storageErr => ([], some PyErr.storage)
          else tailLoop insert endErr rest

/-- Lines 85–104: `start_change_stream`.  The body prints and runs the loop;
`except PyMongoError` catches a storage exception and logs it; the `finally`
closes the client connection on every path; any other exception propagates
to the caller (after the `finally`). -/
def start_change_stream (insert : Value → InsertOutcome)
    (changes : List Doc) (endErr : Bool) : List TEvent × Option PyErr :=
  let (tr, exc) := tailLoop insert endErr changes
  let (tr2, exc2) : List TEvent × Option PyErr :=
    match exc with
    | some PyErr.storage => (tr ++ [TEvent.loggedStreamError], none)
    | e => (tr, e)
  (TEvent.listening :: tr2 ++ [TEvent.closedConnection], exc2)

/-- Observable events of one pipeline run. -/
inductive REvent where
  | processingExisting : REvent
  | backfillInserted : Nat → REvent
  | loggedBackfillError : REvent
  | tailEvent : TEvent → REvent

/-- Lines 70–83: `process_existing_data`.  Reads the source documents,
normalizes them with the default parameters, then bulk-inserts; a
`PyMongoError` from `insert_many` (modelled by `bulkInsertFails`) is caught
and logged, after which the method returns normally.  A `ValueError` raised
by the normalizer is not caught and propagates. -/
def process_existing_data (gen : Nat → String) (source : List Doc)
    (bulkInsertFails : Bool) : List REvent × Option PyErr :=
  match normalize_analyst_output gen (Value.vList (source.map Value.vDict)) with
  | .error _ => ([REvent.processingExisting], some PyErr.valueErr)
  | .ok out =>
      if bulkInsertFails then
        ([REvent.processingExisting, REvent.loggedBackfillError], none)
      else
        ([REvent.processingExisting, REvent.backfillInserted out.length], none)

/-- Lines 106–111: `run` calls `process_existing_data`, then (unless that
call raised) `start_change_stream`. -/
def MongoDBProcessor.run (gen : Nat → String) (source : List Doc)
    (bulkInsertFails : Bool) (insert : Value → InsertOutcome)
    (changes : List Doc) (endErr : Bool) : List REvent × Option PyErr :=
  let (tr1, e1) := process_existing_data gen source bulkInsertFails
  match e1 with
  | some e => (tr1, some e)
  | none =>
      let (tr2, e2) := start_change_stream insert changes endErr
      (tr1 ++ tr2.map REvent.tailEvent, e2)

/-! ## Exchange resolution (`src/symbol_finder.py`, lines 115–152) -/

/-- One row of the cleaned TradingView symbol table. -/
structure Row where
  symbol : String
  currency_code : String
  exchange : String
  source_id : String
  Base : String

/-- One entry of the result of `generate_trading_urls`. -/
structure UrlEntry where
  base_currency : String
  quote_currency : String
  exchange : String
  url : String
deriving DecidableEq

/-- Python `str.upper()` on one ASCII character. -/
def pyUpperChar (c : Char) : Char :=
  if 97 ≤ c.toNat ∧ c.toNat ≤ 122 then Char.ofNat (c.toNat - 32) else c

/-- Python `str.upper()` (the symbols handled by the script are ASCII). -/
def pyUpper (s : String) : String :=
  ⟨s.data.map pyUpperChar⟩

/-- Lines 115–118: `create_url(trading_pair, exchange)`. -/
def create_url (trading_pair exchange : String) : String :=
  "https://s.tradingview.com/widgetembed/?frameElementId=tradingview_abc&symbol="
    ++ pyUpper exchange ++ ":" ++ pyUpper trading_pair
    ++ "&interval=60&theme=dark"

/-- Lines 120–135: `generate_trading_urls(base_currency, quote_currency,
df_filtered)`: keep the rows whose `currency_code` equals the quote and
build one URL entry per row. -/
def generate_trading_urls (base_currency quote_currency : String)
    (df_filtered : List Row) : List UrlEntry :=
  (df_filtered.filter (fun r => r.currency_code == quote_currency)).map
    (fun r =>
      { base_currency := base_currency, quote_currency := quote_currency,
        exchange := r.exchange, url := create_url r.symbol r.source_id })

/-- Python `max(xs, key=score)`: the first element of maximal score (`none`
on an empty sequence, where Python raises `ValueError`). -/
def argmaxPy (score : String → Nat) : List String → Option String
  | [] => none
  | x :: xs => some (xs.foldl (fun best y => if score y > score best then y else best) x)

/-- Result of `determine_exchange`. -/
inductive ExchangeResult where
  | noBaseMatch : ExchangeResult
  | urls : List UrlEntry → ExchangeResult
  | emptyMaxError : ExchangeResult
  | outOfFuel : ExchangeResult
deriving DecidableEq

/-- Lines 138–152: `determine_exchange(df_cleaned, BASE, QUOTE)`.
`sim q x` abstracts `difflib.SequenceMatcher(None, q, x).ratio()` (only its
comparisons matter to the control flow).  The recursion of the source is
given explicit `fuel`; `outOfFuel` marks exhaustion, and the theorems show
fuel `3` always suffices.  `emptyMaxError` models the `ValueError` Python's
`max` raises on an empty sequence (unreachable under the base-match guard). -/
def determine_exchange (sim : String → String → Nat) (df_cleaned : List Row) :
    Nat → String → Option String → ExchangeResult
  | 0, _, _ => .outOfFuel
  | fuel + 1, BASE0, QUOTE =>
      let BASE := pyUpper BASE0
      if (df_cleaned.map Row.Base).contains BASE then
        let df_filtered := df_cleaned.filter (fun r => r.Base == BASE)
        match QUOTE with
        | none => determine_exchange sim df_cleaned fuel BASE (some "USD")
        | some q =>
            if (df_filtered.map Row.currency_code).contains q then
              .urls (generate_trading_urls BASE q df_filtered)
            else
              match argmaxPy (fun x => sim q x) (df_filtered.map Row.currency_code) with
              | none => .emptyMaxError
              | some best => determine_exchange sim df_cleaned fuel BASE (some best)
      else .noBaseMatch

/-! ## Basic dictionary lemmas -/

theorem Dict.find?_eq_none_of_not_contains {d : Doc} {k : String}
    (h : Dict.contains d k = false) :
    d.find? (fun p => p.1 == k) = none := by
  rw [List.find?_eq_none]
  intro p hp hpk
  rw [Dict.contains, List.any_eq_false] at h
  exact h p hp hpk

theorem Dict.get?_eq_none_of_not_contains {d : Doc} {k : String}
    (h : Dict.contains d k = false) : Dict.get? d k = none := by
  simp [Dict.get?, Dict.find?_eq_none_of_not_contains h]

theorem Dict.get?_mapReplace_self {d : Doc} {k : String} {v : Value}
    (h : Dict.contains d k = true) :
    Dict.get? (d.map (fun p => if p.1 == k then (k, v) else p)) k = some v := by
  induction d with
  | nil => simp [Dict.contains] at h
  | cons p rest ih =>
      by_cases hp : (p.1 == k) = true
      · simp [Dict.get?, List.find?, hp]
      · have hrest : Dict.contains rest k = true := by
          simpa [Dict.contains, hp] using h
        simpa [Dict.get?, List.find?, hp] using ih hrest

theorem Dict.get?_set_self (d : Doc) (k : String) (v : Value) :
    Dict.get? (Dict.set d k v) k = some v := by
  cases h : Dict.contains d k
  · simp only [Dict.set, h, Bool.false_eq_true, if_false]
    rw [Dict.get?, List.find?_append,
      Dict.find?_eq_none_of_not_contains h]
    simp [List.find?]
  · simp only [Dict.set, h, if_true]
    exact Dict.get?_mapReplace_self h

theorem Dict.key_of_mem_set {d : Doc} {k : String} {v : Value} {p : String × Value}
    (h : p ∈ Dict.set d k v) : p.1 = k ∨ p.1 ∈ d.map Prod.fst := by
  cases hc : Dict.contains d k
  · rw [Dict.set, hc] at h
    simp only [Bool.false_eq_true, if_false, List.mem_append,
      List.mem_singleton] at h
    rcases h with h | h
    · right; exact List.mem_map.mpr ⟨p, h, rfl⟩
    · left; rw [h]
  · rw [Dict.set, hc, if_pos rfl] at h
    rcases List.mem_map.mp h with ⟨q, hq, hfq⟩
    by_cases hqk : (q.1 == k) = true
    · rw [if_pos hqk] at hfq
      left; rw [← hfq]
    · rw [if_neg (by simp_all)] at hfq
      right; exact List.mem_map.mpr ⟨q, hq, by rw [hfq]⟩

/-! ## Claim 6: the tailer closes the connection on every exit path -/

/-- **C6**: on every exit path of `start_change_stream` — the stream ending
normally, a subscription-level storage failure, a per-notification storage
failure escaping the inner handler, or any other exception raised while
iterating notifications (modelled: a `KeyError` from subscripting the change
document) — the last observable event is the release of the client
connection (`finally: self.client.close()`): the tailer never terminates
with the connection still open. -/
theorem getLast?_cons_append {α : Type} (x : α) (l : List α) (a : α) :
    (x :: (l ++ [a])).getLast? = some a := by
  rw [← List.cons_append]
  exact List.getLast?_concat _

theorem claim6_connection_closed (insert : Value → InsertOutcome)
    (changes : List Doc) (endErr : Bool) :
    (start_change_stream insert changes endErr).1.getLast? =
      some TEvent.closedConnection := by
  unfold start_change_stream
  rcases tailLoop insert endErr changes with ⟨tr, exc⟩
  rcases exc with _ | e
  · exact getLast?_cons_append _ _ _
  · cases e
    · exact getLast?_cons_append _ _ _
    · exact getLast?_cons_append _ _ _
    · exact getLast?_cons_append _ _ _

/-! ## Error characterization of the normalizer -/

theorem resolveColumn_ne_invalidInput (records : List Doc) (cn : Option String) :
    resolveColumn records cn ≠ .error .invalidInput := by
  unfold resolveColumn
  split
  · split
    · split <;> simp
    · simp
  · split
    · simp
    · split <;> simp

theorem normalizeDocs_ne_invalidInput (gen : Nat → String) (records : List Doc)
    (cn : Option String) (ks : List String) (km : List (String × String)) :
    normalizeDocs gen records cn ks km ≠ .error .invalidInput := by
  unfold normalizeDocs
  split
  · rename_i e h
    intro hc
    apply resolveColumn_ne_invalidInput records cn
    rw [h]
    cases hc
    rfl
  · simp

theorem allDocs_of_docs (records : List Doc) :
    allDocs (records.map Value.vDict) = some records := by
  induction records with
  | nil => rfl
  | cons r rest ih => simp [allDocs, Value.asDoc, ih]

/-- **C7**: `normalize_analyst_output` raises `InvalidInputError` (the
`ValueError` of line 30) exactly when its `data` argument is not a list:
every non-list input fails with that error before any output is produced,
and no list input ever raises it. -/
theorem claim7_invalid_input_iff (gen : Nat → String) (data : Value)
    (cn : Option String) (ks : List String) (km : List (String × String)) :
    (normalize_analyst_output gen data cn ks km = .error .invalidInput) ↔
      data.isList = false := by
  cases data with
  | vList rs =>
      simp only [normalize_analyst_output, Value.isList]
      constructor
      · intro h
        exfalso
        rcases hm : allDocs rs with _ | records
        · rw [hm] at h; cases h
        · rw [hm] at h
          exact normalizeDocs_ne_invalidInput gen records cn ks km h
      · intro h; cases h
  | vNull => simp [normalize_analyst_output, Value.isList]
  | vBool b => simp [normalize_analyst_output, Value.isList]
  | vInt n => simp [normalize_analyst_output, Value.isList]
  | vStr s => simp [normalize_analyst_output, Value.isList]
  | vDict d => simp [normalize_analyst_output, Value.isList]

/-! ## Claim 3: a per-notification storage failure stops the loop (code bug) -/

/-- A change notification of kind `insert` carrying `doc`. -/
def insertChange (doc : Value) : Doc :=
  [("operationType", Value.vStr "insert"), ("fullDocument", doc)]

/-- The two documents of the claim-3 failing input. -/
def claim3_doc1 : Value := Value.vDict [("k", Value.vStr "one")]

def claim3_doc2 : Value := Value.vDict [("k", Value.vStr "two")]

/-- Storage behaviour for the claim-3 failing input: inserting the first
document raises `PyMongoError`; any other insert succeeds. -/
def claim3_insert : Value → InsertOutcome := fun v =>
  match v with
  | .vDict [("k", .vStr "one")] => .storageErr
  | _ => .ok

/-- **C3** (evidence for the code bug): on a stream of two `insert`
notifications whose first target insert raises `PyMongoError` (the class
`insert_one` raises on storage failure) while the second would succeed, the
error escapes the inner `except ValueError` (line 98), is caught by the
OUTER `except PyMongoError` (line 100), and the subscription loop ends: the
second document is never inserted, contradicting the claimed
catch-log-continue behaviour. -/
theorem claim3_insert_failure_stops_loop :
    claim3_insert claim3_doc2 = InsertOutcome.ok ∧
    start_change_stream claim3_insert
        [insertChange claim3_doc1, insertChange claim3_doc2] false =
      ([TEvent.listening, TEvent.loggedStreamError, TEvent.closedConnection],
        none) :=
  ⟨rfl, rfl⟩

/-! ## Claim 5: backfill bulk-insert failure does not stop the driver -/

/-- Source collection of the claim-5 counterexample run. -/
def claim5_source : List Doc := [[("analyst_outputs", Value.vList [])]]

/-- **C5** (counterexample): a run in which the backfill's bulk insert fails
with a storage error (`bulkInsertFails = true`) still starts the Change-Feed
Tailer: the trace shows the backfill error being logged and then the tail
phase beginning (`listening`) — refuting "the Change-Feed Tailer is never
started" after a backfill storage failure. -/
theorem claim5_counterexample :
    MongoDBProcessor.run (fun _ => "u") claim5_source true
        (fun _ => InsertOutcome.ok) [] false =
      ([REvent.processingExisting, REvent.loggedBackfillError,
        REvent.tailEvent TEvent.listening,
        REvent.tailEvent TEvent.closedConnection], none) :=
  rfl

/-- **C5 (amended)**: if the backfill's bulk insert fails with a storage
error, `process_existing_data` catches and logs it (line 82) and returns
normally, and the driver then starts the Change-Feed Tailer anyway: in every
run whose normalization succeeds and whose bulk insert fails, the run trace
is the backfill-error log followed by the entire tail-phase trace, which
begins with the tailer's subscription. -/
theorem claim5_tailer_runs_regardless (gen : Nat → String) (source : List Doc)
    (insert : Value → InsertOutcome) (changes : List Doc) (endErr : Bool)
    (out : List Doc)
    (hnorm : normalize_analyst_output gen (Value.vList (source.map Value.vDict))
        = Except.ok out) :
    (MongoDBProcessor.run gen source true insert changes endErr).1 =
      [REvent.processingExisting, REvent.loggedBackfillError] ++
        (start_change_stream insert changes endErr).1.map REvent.tailEvent ∧
    REvent.tailEvent TEvent.listening ∈
      (MongoDBProcessor.run gen source true insert changes endErr).1 := by
  have hrun : MongoDBProcessor.run gen source true insert changes endErr =
      ([REvent.processingExisting, REvent.loggedBackfillError] ++
        (start_change_stream insert changes endErr).1.map REvent.tailEvent,
       (start_change_stream insert changes endErr).2) := by
    unfold MongoDBProcessor.run process_existing_data
    rw [hnorm]
    rfl
  constructor
  · rw [hrun]
  · rw [hrun]
    simp only [List.mem_append, List.mem_cons]
    right
    refine List.mem_map.mpr ⟨TEvent.listening, ?_, rfl⟩
    unfold start_change_stream
    rcases tailLoop insert endErr changes with ⟨tr, exc⟩
    rcases exc with _ | e
    · exact List.mem_cons_self _ _
    · cases e
      · exact List.mem_cons_self _ _
      · exact List.mem_cons_self _ _
      · exact List.mem_cons_self _ _

/-- Closed instantiation of `claim5_tailer_runs_regardless`. -/
theorem claim5_tailer_runs_regardless_witness :
    normalize_analyst_output (fun _ => "u")
        (Value.vList (claim5_source.map Value.vDict)) = Except.ok [] ∧
    ((MongoDBProcessor.run (fun _ => "u") claim5_source true
        (fun _ => InsertOutcome.ok) [] false).1 =
      [REvent.processingExisting, REvent.loggedBackfillError] ++
        (start_change_stream (fun _ => InsertOutcome.ok) [] false).1.map
          REvent.tailEvent ∧
    REvent.tailEvent TEvent.listening ∈
      (MongoDBProcessor.run (fun _ => "u") claim5_source true
        (fun _ => InsertOutcome.ok) [] false).1) :=
  ⟨rfl, claim5_tailer_runs_regardless (fun _ => "u") claim5_source
    (fun _ => InsertOutcome.ok) [] false [] rfl⟩

/-! ## Claim 8: when `MissingColumnError` is raised -/

theorem normalizeDocs_error_iff (gen : Nat → String) (records : List Doc)
    (cn : Option String) (ks : List String) (km : List (String × String))
    (e : NormError) :
    normalizeDocs gen records cn ks km = .error e ↔
      resolveColumn records cn = .error e := by
  unfold normalizeDocs
  rcases h : resolveColumn records cn with e' | col <;> simp

theorem resolveColumn_detect_missing_iff (records : List Doc) (cn : Option String)
    (hcn : truthyStr cn = false) :
    resolveColumn records cn = .error .missingColumn ↔
      (records.any (fun r => Dict.contains r "analyst_consensus_output") = false ∧
        records.any (fun r => Dict.contains r "analyst_outputs") = false) := by
  unfold resolveColumn
  rw [hcn]
  simp only [Bool.false_eq_true, if_false]
  cases h1 : records.any (fun r => Dict.contains r "analyst_consensus_output")
  · cases h2 : records.any (fun r => Dict.contains r "analyst_outputs")
    · simp
    · simp
  · simp

theorem resolveColumn_explicit_missing_iff (records : List Doc) (s : String)
    (hs : s ≠ "") :
    resolveColumn records (some s) = .error .missingColumn ↔
      records.any (fun r => Dict.contains r s) = false := by
  unfold resolveColumn
  have ht : truthyStr (some s) = true := by simp [truthyStr, hs]
  rw [ht]
  simp only [if_true]
  cases h : records.any (fun r => Dict.contains r s) <;> simp

theorem resolveColumn_missing_iff (records : List Doc) (cn : Option String) :
    resolveColumn records cn = .error .missingColumn ↔
      ((∃ s, cn = some s ∧ s ≠ "" ∧
          records.any (fun r => Dict.contains r s) = false) ∨
        (truthyStr cn = false ∧
          records.any (fun r => Dict.contains r "analyst_consensus_output") = false ∧
          records.any (fun r => Dict.contains r "analyst_outputs") = false)) := by
  rcases cn with _ | s
  · rw [resolveColumn_detect_missing_iff records none rfl]
    constructor
    · rintro ⟨h1, h2⟩
      exact Or.inr ⟨rfl, h1, h2⟩
    · rintro (⟨s, hs, _, _⟩ | ⟨_, h1, h2⟩)
      · exact Option.noConfusion hs
      · exact ⟨h1, h2⟩
  · by_cases hs : s = ""
    · subst hs
      rw [resolveColumn_detect_missing_iff records (some "") rfl]
      constructor
      · rintro ⟨h1, h2⟩
        exact Or.inr ⟨rfl, h1, h2⟩
      · rintro (⟨s', hs', hne, _⟩ | ⟨_, h1, h2⟩)
        · exact absurd (Option.some.inj hs').symm hne
        · exact ⟨h1, h2⟩
    · rw [resolveColumn_explicit_missing_iff records s hs]
      constructor
      · intro h
        exact Or.inl ⟨s, rfl, hs, h⟩
      · rintro (⟨s', hs', _, h⟩ | ⟨ht, _, _⟩)
        · obtain rfl : s = s' := Option.some.inj hs'
          exact h
        · exact absurd ht (by simp [truthyStr, hs])

/-- **C8** (counterexample to the claim as stated): with the explicitly
supplied column name `""` — a name occurring in no record — the code does
NOT raise `MissingColumnError`: the empty string is falsy, so line 33's
`if column_name:` routes the call to auto-detection, which finds
`'analyst_outputs'` and succeeds. -/
theorem claim8_counterexample :
    normalize_analyst_output (fun _ => "u")
        (Value.vList [Value.vDict [("analyst_outputs", Value.vList [])]])
        (some "") defaultKeysToSelect [] = .ok [] ∧
    Dict.contains [("analyst_outputs", Value.vList [])] "" = false :=
  ⟨rfl, rfl⟩

/-- **C8 (amended)**: `normalize_analyst_output` (on a record set of
mappings) raises `MissingColumnError` exactly when: a NON-EMPTY column name
is explicitly supplied and occurs in no record, or the column name is
omitted (or supplied as the falsy empty string) and neither recognized
nested-field name occurs in any record.  If the column resolves, no such
error is raised. -/
theorem claim8_missing_column_iff (gen : Nat → String) (records : List Doc)
    (cn : Option String) (ks : List String) (km : List (String × String)) :
    (normalize_analyst_output gen (Value.vList (records.map Value.vDict)) cn ks km
        = .error .missingColumn) ↔
      ((∃ s, cn = some s ∧ s ≠ "" ∧
          records.any (fun r => Dict.contains r s) = false) ∨
        (truthyStr cn = false ∧
          records.any (fun r => Dict.contains r "analyst_consensus_output") = false ∧
          records.any (fun r => Dict.contains r "analyst_outputs") = false)) := by
  rw [← resolveColumn_missing_iff records cn,
    ← normalizeDocs_error_iff gen records cn ks km NormError.missingColumn]
  simp only [normalize_analyst_output, allDocs_of_docs records]

/-! ## Counting the output records -/

theorem innerLoop_length (gen : Nat → String) (col : String) (ks : List String)
    (km : List (String × String)) (record : Doc) (ctr : Nat) (items : List Value) :
    (innerLoop gen col ks km record ctr items).length = items.length := by
  induction items generalizing ctr with
  | nil => rfl
  | cons x rest ih => simp [innerLoop, ih]

theorem normalizeLoop_length (gen : Nat → String) (col : String) (ks : List String)
    (km : List (String × String)) (ctr : Nat) (records : List Doc) :
    (normalizeLoop gen col ks km ctr records).length =
      (records.map (nestedCount col)).sum := by
  induction records generalizing ctr with
  | nil => rfl
  | cons r rest ih =>
      simp [normalizeLoop, innerLoop_length, nestedCount, ih]

theorem normalizeDocs_ok (gen : Nat → String) (records : List Doc)
    (cn : Option String) (ks : List String) (km : List (String × String))
    (col : String) (hres : resolveColumn records cn = .ok col) :
    normalize_analyst_output gen (Value.vList (records.map Value.vDict)) cn ks km =
      .ok (normalizeLoop gen col ks km 0 records) := by
  simp only [normalize_analyst_output, allDocs_of_docs records, normalizeDocs, hres]

/-- **C1**: whenever the nested column resolves (auto-detected or explicitly
supplied), `normalize_analyst_output` succeeds and the number of Output
Records equals the sum over input records of the length of the record's
nested-field value when it is present and is a list, and `0` when it is
absent or not a list (`nestedCount`); in particular a record whose nested
field is an empty list contributes zero Output Records. -/
theorem claim1_output_count (gen : Nat → String) (records : List Doc)
    (cn : Option String) (ks : List String) (km : List (String × String))
    (col : String) (hres : resolveColumn records cn = .ok col) :
    normalize_analyst_output gen (Value.vList (records.map Value.vDict)) cn ks km =
      .ok (normalizeLoop gen col ks km 0 records) ∧
    (normalizeLoop gen col ks km 0 records).length =
      (records.map (nestedCount col)).sum ∧
    ∀ r ∈ records, Dict.get? r col = some (Value.vList []) →
      nestedCount col r = 0 := by
  refine ⟨normalizeDocs_ok gen records cn ks km col hres,
    normalizeLoop_length gen col ks km 0 records, ?_⟩
  intro r _ hr
  simp [nestedCount, nestedItems, hr]

/-- Concrete record set for the claim-1 witness: two sub-records, an empty
nested list, and a record without the nested field. -/
def claim1_records : List Doc :=
  [[("article_db_id", Value.vStr "A1"),
    ("analyst_outputs",
      Value.vList [Value.vDict [("category_name", Value.vStr "x")],
        Value.vDict [("category_name", Value.vStr "y")]])],
   [("analyst_outputs", Value.vList [])],
   [("other", Value.vInt 3)]]

/-- Closed instantiation of `claim1_output_count`. -/
theorem claim1_output_count_witness :
    resolveColumn claim1_records none = Except.ok "analyst_outputs" ∧
    (normalize_analyst_output (fun _ => "u")
        (Value.vList (claim1_records.map Value.vDict)) none defaultKeysToSelect [] =
      .ok (normalizeLoop (fun _ => "u") "analyst_outputs" defaultKeysToSelect []
        0 claim1_records) ∧
    (normalizeLoop (fun _ => "u") "analyst_outputs" defaultKeysToSelect []
        0 claim1_records).length =
      (claim1_records.map (nestedCount "analyst_outputs")).sum ∧
    ∀ r ∈ claim1_records,
      Dict.get? r "analyst_outputs" = some (Value.vList []) →
        nestedCount "analyst_outputs" r = 0) :=
  ⟨rfl, claim1_output_count (fun _ => "u") claim1_records none
    defaultKeysToSelect [] "analyst_outputs" rfl⟩

/-! ## Claim 9: auto-detection prefers `analyst_consensus_output` -/

/-- **C9**: when no column name is supplied and at least one record contains
`'analyst_consensus_output'`, auto-detection selects
`'analyst_consensus_output'` for the whole call (even if other records
contain `'analyst_outputs'`): the call succeeds with that column, the output
count decomposes over it, and any record lacking it contributes zero Output
Records.  The detected column is a function of the record set alone, so
repeated calls on the same input detect the same column. -/
theorem claim9_detection_preference (gen : Nat → String) (records : List Doc)
    (ks : List String) (km : List (String × String))
    (h : records.any (fun r => Dict.contains r "analyst_consensus_output") = true) :
    resolveColumn records none = .ok "analyst_consensus_output" ∧
    normalize_analyst_output gen (Value.vList (records.map Value.vDict)) none ks km =
      .ok (normalizeLoop gen "analyst_consensus_output" ks km 0 records) ∧
    (normalizeLoop gen "analyst_consensus_output" ks km 0 records).length =
      (records.map (nestedCount "analyst_consensus_output")).sum ∧
    ∀ r ∈ records, Dict.contains r "analyst_consensus_output" = false →
      nestedCount "analyst_consensus_output" r = 0 := by
  have hres : resolveColumn records none = .ok "analyst_consensus_output" := by
    unfold resolveColumn
    simp [truthyStr, h]
  refine ⟨hres, normalizeDocs_ok gen records none ks km _ hres,
    normalizeLoop_length gen _ ks km 0 records, ?_⟩
  intro r _ hr
  simp [nestedCount, nestedItems, Dict.get?_eq_none_of_not_contains hr]

/-- Record set for the claim-9 witness: the `analyst_outputs` variant occurs
first, the `analyst_consensus_output` variant second. -/
def claim9_records : List Doc :=
  [[("analyst_outputs", Value.vList [Value.vDict []])],
   [("analyst_consensus_output", Value.vList [])]]

/-- Closed instantiation of `claim9_detection_preference`. -/
theorem claim9_detection_preference_witness :
    claim9_records.any
        (fun r => Dict.contains r "analyst_consensus_output") = true ∧
    (resolveColumn claim9_records none = .ok "analyst_consensus_output" ∧
    normalize_analyst_output (fun _ => "u")
        (Value.vList (claim9_records.map Value.vDict)) none defaultKeysToSelect [] =
      .ok (normalizeLoop (fun _ => "u") "analyst_consensus_output"
        defaultKeysToSelect [] 0 claim9_records) ∧
    (normalizeLoop (fun _ => "u") "analyst_consensus_output" defaultKeysToSelect []
        0 claim9_records).length =
      (claim9_records.map (nestedCount "analyst_consensus_output")).sum ∧
    ∀ r ∈ claim9_records,
      Dict.contains r "analyst_consensus_output" = false →
        nestedCount "analyst_consensus_output" r = 0) :=
  ⟨rfl, claim9_detection_preference (fun _ => "u") claim9_records
    defaultKeysToSelect [] rfl⟩

/-! ## Claim 2: which keys can appear in an Output Record -/

theorem keys_of_set_subset {d : Doc} {k : String} {v : Value} {x : String}
    (h : x ∈ (Dict.set d k v).map Prod.fst) : x = k ∨ x ∈ d.map Prod.fst := by
  rcases List.mem_map.mp h with ⟨p, hp, rfl⟩
  exact Dict.key_of_mem_set hp

theorem keys_of_renameFold (km : List (String × String)) (l : Doc) :
    ∀ (init : Doc) (x : String),
      x ∈ (l.foldl (fun acc q => Dict.set acc (renameKey km q.1) q.2) init).map
        Prod.fst →
      x ∈ init.map Prod.fst ∨ ∃ q ∈ l, x = renameKey km q.1 := by
  induction l with
  | nil => exact fun init x h => Or.inl h
  | cons q rest ih =>
      intro init x h
      rcases ih (Dict.set init (renameKey km q.1) q.2) x h with hin | ⟨q', hq', hb⟩
      · rcases keys_of_set_subset hin with h1 | h2
        · exact Or.inr ⟨q, List.mem_cons_self q rest, h1⟩
        · exact Or.inl h2
      · exact Or.inr ⟨q', List.mem_cons_of_mem _ hq', hb⟩

theorem key_of_mem_renameKeys {km : List (String × String)} {d : Doc}
    {x : String} (h : x ∈ (renameKeys km d).map Prod.fst) :
    ∃ q ∈ d, x = renameKey km q.1 := by
  rcases keys_of_renameFold km d [] x h with hin | hq
  · cases hin
  · exact hq

theorem key_of_mem_selectKeys {ks : List String} {d : Doc} {p : String × Value}
    (h : p ∈ selectKeys ks d) : ks.contains p.1 = true ∧ p ∈ d := by
  have := List.mem_filter.mp h
  exact ⟨this.2, this.1⟩

/-- Keys of one flattened record: with a non-empty `keys_to_select`, every
key is the reserved `"signal_id"` or the renaming of a selected key. -/
theorem key_of_mem_flattenOne {col : String} {ks : List String}
    {km : List (String × String)} {uid : String} {record : Doc} {nested : Value}
    {p : String × Value} (hks : ks ≠ [])
    (h : p ∈ flattenOne col ks km uid record nested) :
    p.1 = "signal_id" ∨ ∃ k, ks.contains k = true ∧ p.1 = renameKey km k := by
  simp only [flattenOne, if_pos hks] at h
  rcases Dict.key_of_mem_set h with h1 | h2
  · exact Or.inl h1
  · right
    by_cases hkm : km = []
    · rw [if_neg (by simp [hkm])] at h2
      rcases List.mem_map.mp h2 with ⟨q, hq, hqp⟩
      refine ⟨q.1, (key_of_mem_selectKeys hq).1, ?_⟩
      rw [← hqp]
      simp [renameKey, hkm]
    · rw [if_pos hkm] at h2
      rcases key_of_mem_renameKeys h2 with ⟨q, hq, hb⟩
      exact ⟨q.1, (key_of_mem_selectKeys hq).1, hb⟩

theorem mem_innerLoop {gen : Nat → String} {col : String} {ks : List String}
    {km : List (String × String)} {record : Doc} {ctr : Nat}
    {items : List Value} {d : Doc}
    (h : d ∈ innerLoop gen col ks km record ctr items) :
    ∃ n nested, nested ∈ items ∧
      d = flattenOne col ks km (gen n) record nested := by
  induction items generalizing ctr with
  | nil => cases h
  | cons x rest ih =>
      rcases List.mem_cons.mp h with h1 | h2
      · exact ⟨ctr, x, List.mem_cons_self x rest, h1⟩
      · rcases ih h2 with ⟨n, nested, hmem, hd⟩
        exact ⟨n, nested, List.mem_cons_of_mem _ hmem, hd⟩

theorem mem_normalizeLoop {gen : Nat → String} {col : String} {ks : List String}
    {km : List (String × String)} {ctr : Nat} {records : List Doc} {d : Doc}
    (h : d ∈ normalizeLoop gen col ks km ctr records) :
    ∃ n record nested, record ∈ records ∧ nested ∈ nestedItems col record ∧
      d = flattenOne col ks km (gen n) record nested := by
  induction records generalizing ctr with
  | nil => cases h
  | cons r rest ih =>
      rcases List.mem_append.mp h with h1 | h2
      · rcases mem_innerLoop h1 with ⟨n, nested, hmem, hd⟩
        exact ⟨n, r, nested, List.mem_cons_self r rest, hmem, hd⟩
      · rcases ih h2 with ⟨n, record, nested, hr, hmem, hd⟩
        exact ⟨n, record, nested, List.mem_cons_of_mem _ hr, hmem, hd⟩

/-- **C2** (counterexample to the claim as stated): with the default
`keys_to_select` and the rename map `pair ↦ trading_pair` — renaming happens
AFTER key selection (line 61 after line 57) — the single Output Record
carries the key `"trading_pair"`, which is neither a member of
`keys_to_select` nor the reserved signal-identifier field name. -/
theorem claim2_counterexample :
    normalize_analyst_output (fun _ => "sig")
        (Value.vList [Value.vDict [("pair", Value.vStr "BTCUSD"),
          ("analyst_outputs", Value.vList [Value.vDict []])]])
        none defaultKeysToSelect [("pair", "trading_pair")] =
      .ok [[("trading_pair", Value.vStr "BTCUSD"),
        ("signal_id", Value.vStr "sig")]] ∧
    defaultKeysToSelect.contains "trading_pair" = false ∧
    "trading_pair" ≠ "signal_id" :=
  ⟨rfl, rfl, by decide⟩

/-- **C2 (amended)**: with a non-empty `keys_to_select` and any
`key_rename_map`, every key of every Output Record is either the reserved
signal-identifier field name or the image under `key_rename_map` of a member
of `keys_to_select` (the member itself when the map does not mention it);
when the rename map is empty this gives the original claim. -/
theorem claim2_keys_amended (gen : Nat → String) (records : List Doc)
    (cn : Option String) (ks : List String) (km : List (String × String))
    (col : String) (hks : ks ≠ [])
    (hres : resolveColumn records cn = .ok col) :
    normalize_analyst_output gen (Value.vList (records.map Value.vDict)) cn ks km =
      .ok (normalizeLoop gen col ks km 0 records) ∧
    ∀ d ∈ normalizeLoop gen col ks km 0 records, ∀ p ∈ d,
      p.1 = "signal_id" ∨ ∃ k, ks.contains k = true ∧ p.1 = renameKey km k := by
  refine ⟨normalizeDocs_ok gen records cn ks km col hres, ?_⟩
  intro d hd p hp
  rcases mem_normalizeLoop hd with ⟨n, record, nested, _, _, rfl⟩
  exact key_of_mem_flattenOne hks hp

/-- Closed instantiation of `claim2_keys_amended`. -/
theorem claim2_keys_amended_witness :
    defaultKeysToSelect ≠ [] ∧
    resolveColumn claim1_records none = Except.ok "analyst_outputs" ∧
    (normalize_analyst_output (fun _ => "u")
        (Value.vList (claim1_records.map Value.vDict)) none defaultKeysToSelect
        [("pair", "trading_pair")] =
      .ok (normalizeLoop (fun _ => "u") "analyst_outputs" defaultKeysToSelect
        [("pair", "trading_pair")] 0 claim1_records) ∧
    ∀ d ∈ normalizeLoop (fun _ => "u") "analyst_outputs" defaultKeysToSelect
        [("pair", "trading_pair")] 0 claim1_records, ∀ p ∈ d,
      p.1 = "signal_id" ∨ ∃ k, defaultKeysToSelect.contains k = true ∧
        p.1 = renameKey [("pair", "trading_pair")] k) :=
  ⟨by decide, rfl, claim2_keys_amended (fun _ => "u") claim1_records none
    defaultKeysToSelect [("pair", "trading_pair")] "analyst_outputs"
    (by decide) rfl⟩

/-! ## Claim 4: the signal identifiers of the output records -/

/-- Every top-level field value of every input record. -/
def docValues (records : List Doc) : List Value :=
  (records.map (fun r => r.map Prod.snd)).flatten

theorem range'_add_split (s a b : Nat) :
    List.range' s (a + b) = List.range' s a ++ List.range' (s + a) b := by
  have h := List.range'_append s a b 1
  rw [Nat.one_mul] at h
  rw [Nat.add_comm a b]
  exact h.symm

theorem flattenOne_signalId (col : String) (ks : List String)
    (km : List (String × String)) (uid : String) (record : Doc)
    (nested : Value) :
    Dict.get? (flattenOne col ks km uid record nested) "signal_id" =
      some (Value.vStr uid) :=
  Dict.get?_set_self _ _ _

theorem innerLoop_signalIds (gen : Nat → String) (col : String)
    (ks : List String) (km : List (String × String)) (record : Doc)
    (ctr : Nat) (items : List Value) :
    (innerLoop gen col ks km record ctr items).map
        (fun d => Dict.get? d "signal_id") =
      (List.range' ctr items.length).map (fun n => some (Value.vStr (gen n))) := by
  induction items generalizing ctr with
  | nil => rfl
  | cons x rest ih =>
      simp only [innerLoop, List.map_cons, List.length_cons, List.range'_succ,
        flattenOne_signalId, ih]

theorem normalizeLoop_signalIds (gen : Nat → String) (col : String)
    (ks : List String) (km : List (String × String)) (ctr : Nat)
    (records : List Doc) :
    (normalizeLoop gen col ks km ctr records).map
        (fun d => Dict.get? d "signal_id") =
      (List.range' ctr ((records.map (nestedCount col)).sum)).map
        (fun n => some (Value.vStr (gen n))) := by
  induction records generalizing ctr with
  | nil => rfl
  | cons r rest ih =>
      rw [normalizeLoop, List.map_append, innerLoop_signalIds, ih,
        List.map_cons, List.sum_cons, range'_add_split, List.map_append]
      rfl

/-- **C4**: whenever the column resolves, every Output Record carries a
generated signal identifier under the reserved key `"signal_id"` — assigned
last (line 64), so neither filtered out by any `keys_to_select` nor
overwritten by any `key_rename_map` collision — and, for an identifier
supply that is injective and avoids the input values (the model of
`uuid.uuid4()`), the identifiers are pairwise distinct within the call and
equal to no input value. -/
theorem claim4_signal_ids (gen : Nat → String) (records : List Doc)
    (cn : Option String) (ks : List String) (km : List (String × String))
    (col : String)
    (hres : resolveColumn records cn = .ok col)
    (hinj : Function.Injective gen)
    (hfresh : ∀ n, Value.vStr (gen n) ∉ docValues records) :
    normalize_analyst_output gen (Value.vList (records.map Value.vDict)) cn ks km =
      .ok (normalizeLoop gen col ks km 0 records) ∧
    (∀ d ∈ normalizeLoop gen col ks km 0 records,
      ∃ n, Dict.get? d "signal_id" = some (Value.vStr (gen n))) ∧
    ((normalizeLoop gen col ks km 0 records).map
        (fun d => Dict.get? d "signal_id")).Nodup ∧
    (∀ d ∈ normalizeLoop gen col ks km 0 records, ∀ v,
      Dict.get? d "signal_id" = some v → v ∉ docValues records) := by
  have hids := normalizeLoop_signalIds gen col ks km 0 records
  have hmem : ∀ d ∈ normalizeLoop gen col ks km 0 records,
      ∃ n, Dict.get? d "signal_id" = some (Value.vStr (gen n)) := by
    intro d hd
    have hin : Dict.get? d "signal_id" ∈
        (normalizeLoop gen col ks km 0 records).map
          (fun d => Dict.get? d "signal_id") :=
      List.mem_map.mpr ⟨d, hd, rfl⟩
    rw [hids] at hin
    rcases List.mem_map.mp hin with ⟨n, _, hn⟩
    exact ⟨n, hn.symm⟩
  refine ⟨normalizeDocs_ok gen records cn ks km col hres, hmem, ?_, ?_⟩
  · rw [hids]
    refine List.Nodup.map ?_ (List.nodup_range' 0 _)
    intro a b hab
    simp only [Option.some.injEq, Value.vStr.injEq] at hab
    exact hinj hab
  · intro d hd v hv
    rcases hmem d hd with ⟨n, hn⟩
    rw [hn] at hv
    have hveq : v = Value.vStr (gen n) := (Option.some.inj hv).symm
    rw [hveq]
    exact hfresh n

/-- Identifier supply for the claim-4 witness. -/
def claim4_gen : Nat → String := fun n => String.mk (List.replicate n 'a')

/-- Record set for the claim-4 witness: one record, two sub-records. -/
def claim4_records : List Doc :=
  [[("x", Value.vInt 5),
    ("analyst_outputs", Value.vList [Value.vDict [], Value.vDict []])]]

theorem claim4_gen_injective : Function.Injective claim4_gen := by
  intro a b h
  have hl := congrArg (fun s => s.data.length) h
  simpa [claim4_gen] using hl

theorem claim4_fresh :
    ∀ n, Value.vStr (claim4_gen n) ∉ docValues claim4_records := by
  intro n h
  have he : docValues claim4_records =
      [Value.vInt 5, Value.vList [Value.vDict [], Value.vDict []]] := rfl
  rw [he] at h
  rcases List.mem_cons.mp h with h1 | h2
  · exact Value.noConfusion h1
  · rcases List.mem_cons.mp h2 with h3 | h4
    · exact Value.noConfusion h3
    · cases h4

/-- Closed instantiation of `claim4_signal_ids`. -/
theorem claim4_signal_ids_witness :
    resolveColumn claim4_records none = Except.ok "analyst_outputs" ∧
    Function.Injective claim4_gen ∧
    (∀ n, Value.vStr (claim4_gen n) ∉ docValues claim4_records) ∧
    (normalize_analyst_output claim4_gen
        (Value.vList (claim4_records.map Value.vDict)) none defaultKeysToSelect [] =
      .ok (normalizeLoop claim4_gen "analyst_outputs" defaultKeysToSelect []
        0 claim4_records) ∧
    (∀ d ∈ normalizeLoop claim4_gen "analyst_outputs" defaultKeysToSelect []
        0 claim4_records,
      ∃ n, Dict.get? d "signal_id" = some (Value.vStr (claim4_gen n))) ∧
    ((normalizeLoop claim4_gen "analyst_outputs" defaultKeysToSelect []
        0 claim4_records).map (fun d => Dict.get? d "signal_id")).Nodup ∧
    (∀ d ∈ normalizeLoop claim4_gen "analyst_outputs" defaultKeysToSelect []
        0 claim4_records, ∀ v,
      Dict.get? d "signal_id" = some v → v ∉ docValues claim4_records)) :=
  ⟨rfl, claim4_gen_injective, claim4_fresh,
    claim4_signal_ids claim4_gen claim4_records none defaultKeysToSelect []
      "analyst_outputs" rfl claim4_gen_injective claim4_fresh⟩

/-! ## Claim 10: termination of `determine_exchange` -/

theorem pyUpperChar_idem (c : Char) : pyUpperChar (pyUpperChar c) = pyUpperChar c := by
  by_cases h : 97 ≤ c.toNat ∧ c.toNat ≤ 122
  · have hup : pyUpperChar c = Char.ofNat (c.toNat - 32) := if_pos h
    obtain ⟨h1, h2⟩ := h
    have hval : (Char.ofNat (c.toNat - 32)).toNat = c.toNat - 32 := by
      generalize c.toNat = m at h1 h2
      interval_cases m <;> decide
    rw [hup]
    have hno : ¬(97 ≤ (Char.ofNat (c.toNat - 32)).toNat ∧
        (Char.ofNat (c.toNat - 32)).toNat ≤ 122) := by
      rw [hval]; omega
    exact if_neg hno
  · have hup : pyUpperChar c = c := if_neg h
    rw [hup, hup]

theorem pyUpper_idem (s : String) : pyUpper (pyUpper s) = pyUpper s := by
  rcases s with ⟨l⟩
  simp only [pyUpper, List.map_map]
  exact congrArg String.mk (List.map_congr_left fun c _ => pyUpperChar_idem c)

theorem foldl_max_mem (score : String → Nat) (xs : List String) :
    ∀ x, xs.foldl (fun best y => if score y > score best then y else best) x
      ∈ x :: xs := by
  induction xs with
  | nil => intro x; exact List.mem_singleton.mpr rfl
  | cons y ys ih =>
      intro x
      rw [List.foldl_cons]
      rcases List.mem_cons.mp (ih _) with h1 | h2
      · rw [h1]
        by_cases hc : score y > score x
        · rw [if_pos hc]
          exact List.mem_cons_of_mem _ (List.mem_cons_self _ _)
        · rw [if_neg hc]
          exact List.mem_cons_self _ _
      · exact List.mem_cons_of_mem _ (List.mem_cons_of_mem _ h2)

theorem argmaxPy_mem {score : String → Nat} {l : List String} {x : String}
    (h : argmaxPy score l = some x) : x ∈ l := by
  cases l with
  | nil => cases h
  | cons a as =>
      simp only [argmaxPy, Option.some.injEq] at h
      rw [← h]
      exact foldl_max_mem score as a

theorem exists_row_of_contains {df : List Row} {B : String}
    (hB : (df.map Row.Base).contains B = true) :
    ∃ r ∈ df, r.Base = B := by
  have hmem : B ∈ df.map Row.Base := by simpa using hB
  rcases List.mem_map.mp hmem with ⟨r, hr, hB'⟩
  exact ⟨r, hr, hB'⟩

theorem codes_ne_nil {df : List Row} {B : String}
    (hB : (df.map Row.Base).contains B = true) :
    (df.filter (fun r => r.Base == B)).map Row.currency_code ≠ [] := by
  rcases exists_row_of_contains hB with ⟨r, hr, hB'⟩
  have hf : r ∈ df.filter (fun r => r.Base == B) :=
    List.mem_filter.mpr ⟨hr, by simp [hB']⟩
  intro hnil
  have hc : r.currency_code ∈
      (df.filter (fun r => r.Base == B)).map Row.currency_code :=
    List.mem_map.mpr ⟨r, hf, rfl⟩
  rw [hnil] at hc
  cases hc

theorem de_succ_none (sim : String → String → Nat) (df : List Row)
    (fuel : Nat) (B0 : String) :
    determine_exchange sim df (fuel + 1) B0 none =
      (if (df.map Row.Base).contains (pyUpper B0) then
        determine_exchange sim df fuel (pyUpper B0) (some "USD")
      else .noBaseMatch) := rfl

theorem de_succ_some (sim : String → String → Nat) (df : List Row)
    (fuel : Nat) (B0 q : String) :
    determine_exchange sim df (fuel + 1) B0 (some q) =
      (if (df.map Row.Base).contains (pyUpper B0) then
        if ((df.filter (fun r => r.Base == pyUpper B0)).map
            Row.currency_code).contains q then
          .urls (generate_trading_urls (pyUpper B0) q
            (df.filter (fun r => r.Base == pyUpper B0)))
        else
          match argmaxPy (fun x => sim q x)
              ((df.filter (fun r => r.Base == pyUpper B0)).map
                Row.currency_code) with
          | none => .emptyMaxError
          | some best =>
              determine_exchange sim df fuel (pyUpper B0) (some best)
      else .noBaseMatch) := rfl

theorem de_noBase {sim : String → String → Nat} {df : List Row} {fuel : Nat}
    {B0 : String} {Q : Option String}
    (hB : (df.map Row.Base).contains (pyUpper B0) = false) :
    determine_exchange sim df (fuel + 1) B0 Q = .noBaseMatch := by
  cases Q with
  | none => rw [de_succ_none, hB]; simp
  | some q => rw [de_succ_some, hB]; simp

theorem de_none {sim : String → String → Nat} {df : List Row} {fuel : Nat}
    {B0 : String}
    (hB : (df.map Row.Base).contains (pyUpper B0) = true) :
    determine_exchange sim df (fuel + 1) B0 none =
      determine_exchange sim df fuel (pyUpper B0) (some "USD") := by
  rw [de_succ_none, hB]
  simp

theorem de_urls {sim : String → String → Nat} {df : List Row} {fuel : Nat}
    {B0 q : String}
    (hB : (df.map Row.Base).contains (pyUpper B0) = true)
    (hq : ((df.filter (fun r => r.Base == pyUpper B0)).map
        Row.currency_code).contains q = true) :
    determine_exchange sim df (fuel + 1) B0 (some q) =
      .urls (generate_trading_urls (pyUpper B0) q
        (df.filter (fun r => r.Base == pyUpper B0))) := by
  rw [de_succ_some, hB, hq]
  simp

theorem de_similar {sim : String → String → Nat} {df : List Row} {fuel : Nat}
    {B0 q best : String}
    (hB : (df.map Row.Base).contains (pyUpper B0) = true)
    (hq : ((df.filter (fun r => r.Base == pyUpper B0)).map
        Row.currency_code).contains q = false)
    (hbest : argmaxPy (fun x => sim q x)
        ((df.filter (fun r => r.Base == pyUpper B0)).map Row.currency_code) =
      some best) :
    determine_exchange sim df (fuel + 1) B0 (some q) =
      determine_exchange sim df fuel (pyUpper B0) (some best) := by
  rw [de_succ_some, hB, hq, hbest]
  simp

theorem de_urls_fix {sim : String → String → Nat} {df : List Row} {fuel : Nat}
    {B q : String} (hfix : pyUpper B = B)
    (hB : (df.map Row.Base).contains B = true)
    (hq : ((df.filter (fun r => r.Base == B)).map
        Row.currency_code).contains q = true) :
    determine_exchange sim df (fuel + 1) B (some q) =
      .urls (generate_trading_urls B q (df.filter (fun r => r.Base == B))) := by
  have h := @de_urls sim df fuel B q
    (by rw [hfix]; exact hB) (by rw [hfix]; exact hq)
  rw [hfix] at h
  exact h

theorem de_similar_fix {sim : String → String → Nat} {df : List Row}
    {fuel : Nat} {B q best : String} (hfix : pyUpper B = B)
    (hB : (df.map Row.Base).contains B = true)
    (hq : ((df.filter (fun r => r.Base == B)).map
        Row.currency_code).contains q = false)
    (hbest : argmaxPy (fun x => sim q x)
        ((df.filter (fun r => r.Base == B)).map Row.currency_code) =
      some best) :
    determine_exchange sim df (fuel + 1) B (some q) =
      determine_exchange sim df fuel B (some best) := by
  have h := @de_similar sim df fuel B q best
    (by rw [hfix]; exact hB) (by rw [hfix]; exact hq)
    (by rw [hfix]; exact hbest)
  rw [hfix] at h
  exact h

theorem de_some_stable (sim : String → String → Nat) (df : List Row)
    {B : String} (hfix : pyUpper B = B)
    (hB : (df.map Row.Base).contains B = true) (q : String) (n : Nat) :
    determine_exchange sim df (n + 2) B (some q) =
      determine_exchange sim df 2 B (some q) ∧
    determine_exchange sim df 2 B (some q) ≠ ExchangeResult.outOfFuel := by
  cases hq : ((df.filter (fun r => r.Base == B)).map
      Row.currency_code).contains q
  · have hne : (df.filter (fun r => r.Base == B)).map
        Row.currency_code ≠ [] := codes_ne_nil hB
    rcases List.exists_cons_of_ne_nil hne with ⟨c, cs, hcs⟩
    have hmax : ∃ best, argmaxPy (fun x => sim q x)
        ((df.filter (fun r => r.Base == B)).map Row.currency_code) =
          some best := by
      rw [hcs]; exact ⟨_, rfl⟩
    rcases hmax with ⟨best, hbest⟩
    have hbmem : best ∈ (df.filter (fun r => r.Base == B)).map
        Row.currency_code := argmaxPy_mem hbest
    have hbcont : ((df.filter (fun r => r.Base == B)).map
        Row.currency_code).contains best = true := by simpa using hbmem
    have lhs2 : determine_exchange sim df (n + 2) B (some q) =
        .urls (generate_trading_urls B best
          (df.filter (fun r => r.Base == B))) := by
      show determine_exchange sim df ((n + 1) + 1) B (some q) = _
      rw [de_similar_fix hfix hB hq hbest]
      exact de_urls_fix hfix hB hbcont
    have rhs2 : determine_exchange sim df 2 B (some q) =
        .urls (generate_trading_urls B best
          (df.filter (fun r => r.Base == B))) := by
      show determine_exchange sim df (1 + 1) B (some q) = _
      rw [de_similar_fix hfix hB hq hbest]
      exact de_urls_fix hfix hB hbcont
    refine ⟨lhs2.trans rhs2.symm, ?_⟩
    rw [rhs2]
    exact fun hcon => ExchangeResult.noConfusion hcon
  · have lhs2 : determine_exchange sim df (n + 2) B (some q) =
        .urls (generate_trading_urls B q
          (df.filter (fun r => r.Base == B))) := by
      show determine_exchange sim df ((n + 1) + 1) B (some q) = _
      exact de_urls_fix hfix hB hq
    have rhs2 : determine_exchange sim df 2 B (some q) =
        .urls (generate_trading_urls B q
          (df.filter (fun r => r.Base == B))) := by
      show determine_exchange sim df (1 + 1) B (some q) = _
      exact de_urls_fix hfix hB hq
    refine ⟨lhs2.trans rhs2.symm, ?_⟩
    rw [rhs2]
    exact fun hcon => ExchangeResult.noConfusion hcon

/-- **C10**: `determine_exchange` terminates on every input: a missing
`QUOTE` is replaced by `"USD"`, and a `QUOTE` absent from the filtered
currency codes is replaced by the most similar code drawn from those codes
(hence present), so the next call returns without further recursion — fuel
`3` suffices for every input (at most three nested calls), and with that
fuel the recursion never runs out. -/
theorem claim10_termination (sim : String → String → Nat) (df : List Row)
    (BASE : String) (QUOTE : Option String) (fuel : Nat) (h3 : 3 ≤ fuel) :
    determine_exchange sim df fuel BASE QUOTE =
      determine_exchange sim df 3 BASE QUOTE ∧
    determine_exchange sim df 3 BASE QUOTE ≠ ExchangeResult.outOfFuel := by
  obtain ⟨k, rfl⟩ : ∃ k, fuel = k + 3 := ⟨fuel - 3, by omega⟩
  cases hB : (df.map Row.Base).contains (pyUpper BASE)
  · have l1 : determine_exchange sim df (k + 3) BASE QUOTE = .noBaseMatch := by
      show determine_exchange sim df ((k + 2) + 1) BASE QUOTE = _
      exact de_noBase hB
    have l2 : determine_exchange sim df 3 BASE QUOTE = .noBaseMatch := by
      show determine_exchange sim df (2 + 1) BASE QUOTE = _
      exact de_noBase hB
    refine ⟨l1.trans l2.symm, ?_⟩
    rw [l2]
    exact fun hcon => ExchangeResult.noConfusion hcon
  · have hfix := pyUpper_idem BASE
    rcases QUOTE with _ | q
    · have l1 : determine_exchange sim df (k + 3) BASE none =
          determine_exchange sim df (k + 2) (pyUpper BASE) (some "USD") := by
        show determine_exchange sim df ((k + 2) + 1) BASE none = _
        exact de_none hB
      have l2 : determine_exchange sim df 3 BASE none =
          determine_exchange sim df 2 (pyUpper BASE) (some "USD") := by
        show determine_exchange sim df (2 + 1) BASE none = _
        exact de_none hB
      obtain ⟨heq, hne⟩ := de_some_stable sim df hfix hB "USD" k
      exact ⟨(l1.trans heq).trans l2.symm, by rw [l2]; exact hne⟩
    · cases hq : ((df.filter (fun r => r.Base == pyUpper BASE)).map
          Row.currency_code).contains q
      · have hne : (df.filter (fun r => r.Base == pyUpper BASE)).map
            Row.currency_code ≠ [] := codes_ne_nil hB
        rcases List.exists_cons_of_ne_nil hne with ⟨c, cs, hcs⟩
        have hmax : ∃ best, argmaxPy (fun x => sim q x)
            ((df.filter (fun r => r.Base == pyUpper BASE)).map
              Row.currency_code) = some best := by
          rw [hcs]; exact ⟨_, rfl⟩
        rcases hmax with ⟨best, hbest⟩
        have l1 : determine_exchange sim df (k + 3) BASE (some q) =
            determine_exchange sim df (k + 2) (pyUpper BASE) (some best) := by
          show determine_exchange sim df ((k + 2) + 1) BASE (some q) = _
          exact de_similar hB hq hbest
        have l2 : determine_exchange sim df 3 BASE (some q) =
            determine_exchange sim df 2 (pyUpper BASE) (some best) := by
          show determine_exchange sim df (2 + 1) BASE (some q) = _
          exact de_similar hB hq hbest
        obtain ⟨heq, hne2⟩ := de_some_stable sim df hfix hB best k
        exact ⟨(l1.trans heq).trans l2.symm, by rw [l2]; exact hne2⟩
      · have l1 : determine_exchange sim df (k + 3) BASE (some q) =
            .urls (generate_trading_urls (pyUpper BASE) q
              (df.filter (fun r => r.Base == pyUpper BASE))) := by
          show determine_exchange sim df ((k + 2) + 1) BASE (some q) = _
          exact de_urls hB hq
        have l2 : determine_exchange sim df 3 BASE (some q) =
            .urls (generate_trading_urls (pyUpper BASE) q
              (df.filter (fun r => r.Base == pyUpper BASE))) := by
          show determine_exchange sim df (2 + 1) BASE (some q) = _
          exact de_urls hB hq
        refine ⟨l1.trans l2.symm, ?_⟩
        rw [l2]
        exact fun hcon => ExchangeResult.noConfusion hcon

/-- Closed instantiation of `claim10_termination`. -/
theorem claim10_termination_witness :
    3 ≤ 5 ∧
    (determine_exchange (fun _ _ => 0)
        [{ symbol := "TORNUSDT", currency_code := "USDT", exchange := "X",
           source_id := "BINANCE", Base := "TORN" }] 5 "torn" none =
      determine_exchange (fun _ _ => 0)
        [{ symbol := "TORNUSDT", currency_code := "USDT", exchange := "X",
           source_id := "BINANCE", Base := "TORN" }] 3 "torn" none ∧
    determine_exchange (fun _ _ => 0)
        [{ symbol := "TORNUSDT", currency_code := "USDT", exchange := "X",
           source_id := "BINANCE", Base := "TORN" }] 3 "torn" none ≠
      ExchangeResult.outOfFuel) :=
  ⟨by omega, claim10_termination (fun _ _ => 0)
    [{ symbol := "TORNUSDT", currency_code := "USDT", exchange := "X",
       source_id := "BINANCE", Base := "TORN" }] "torn" none 5 (by omega)⟩

end FinPlot
